import Mathlib

/-!
Verification of the InterviewPro AI backend (src/server.js, with the
userMessageCount tiering variant from src/unnamed/part_002).

Texts are modelled as `List Char`. JavaScript regular-expression whitespace
(`\s`) and `String.prototype.trim` use the same character class, modelled by
`isJsWS`. Upstream collaborators (the chat completion and the speech
synthesis service) are modelled as oracle parameters of the endpoint
functions; the run records which upstream calls were performed.
-/

namespace InterviewPro

/-- Characters of a string literal. -/
def strL (s : String) : List Char := s.data

/-- JavaScript whitespace (the class `\s`, which is also the set trimmed by
`String.prototype.trim`): tab, LF, VT, FF, CR, space, NBSP, and the Unicode
space separators, line separators and BOM. -/
def isJsWS (c : Char) : Bool :=
  c = ' ' || c = '\t' || c = '\n' || c = '\x0b' || c = '\x0c' || c = '\r' ||
  c = '\u00A0' || c = '\u1680' || ('\u2000' ≤ c && c ≤ '\u200A') ||
  c = '\u2028' || c = '\u2029' || c = '\u202F' || c = '\u205F' ||
  c = '\u3000' || c = '\uFEFF'

/-- Remove trailing JavaScript whitespace. -/
def trimRight (l : List Char) : List Char :=
  (l.reverse.dropWhile isJsWS).reverse

/-- JavaScript `String.prototype.trim`: remove leading and trailing whitespace. -/
def jsTrim (l : List Char) : List Char :=
  trimRight (l.dropWhile isJsWS)

/-- A JavaScript value in a string-typed slot of the request body:
absent (`undefined`), present but not a string, or a string. -/
inductive JsStr where
  | absent
  | nonString
  | str (s : List Char)
deriving DecidableEq

/-- src/server.js `validateString`:
`typeof value === 'string' && value.trim().length > 0 && value.length <= maxLength`. -/
def validateString (v : JsStr) (maxLength : Nat) : Bool :=
  match v with
  | .str s => decide (0 < (jsTrim s).length) && decide (s.length ≤ maxLength)
  | _ => false

/-- The character replacement of `value.replace(/[\n\r\t]/g, ' ')`. -/
def replNRT (c : Char) : Char :=
  if c = '\n' || c = '\r' || c = '\t' then ' ' else c

/-- src/server.js `sanitizeInput` on a string argument:
`value.replace(/[\n\r\t]/g, ' ').trim()`. -/
def sanitizeStr (s : List Char) : List Char :=
  jsTrim (s.map replNRT)

/-- src/server.js `sanitizeInput`: non-strings map to the empty string. -/
def sanitizeInput (v : JsStr) : List Char :=
  match v with
  | .str s => sanitizeStr s
  | _ => []

/-- JavaScript `x || d` for a string `x`: the empty string is falsy. -/
def orDefault (l d : List Char) : List Char :=
  if l = [] then d else l

/-- One element of the `messages` array. `bad` stands for a (non-null) element
that is not an object with string `role` and string `content` fields. -/
inductive Entry where
  | bad
  | msg (role : String) (content : List Char)
deriving DecidableEq

/-- The `messages` slot of the request body. -/
inductive MsgsField where
  | absent
  | nonArray
  | arr (entries : List Entry)
deriving DecidableEq

/-- A message forwarded to the chat completion service. -/
structure ChatMsg where
  role : String
  content : List Char
deriving DecidableEq

/-- src/server.js `validateMessages`, array case: at most 100 entries, every
entry an object with a string role and a string content of at most 10000
characters. -/
def validateMessagesL (entries : List Entry) : Bool :=
  decide (entries.length ≤ 100) &&
  entries.all (fun e =>
    match e with
    | .bad => false
    | .msg _ c => decide (c.length ≤ 10000))

/-- src/server.js `validateMessages`: non-arrays are rejected. -/
def validateMessages (mf : MsgsField) : Bool :=
  match mf with
  | .arr entries => validateMessagesL entries
  | _ => false

/-- src/server.js `sanitizeMessages`: unrecognized roles normalize to
`assistant`. (`bad` entries never reach this point: `validateMessages`
rejects them first.) -/
def sanitizeMessages (entries : List Entry) : List ChatMsg :=
  entries.map (fun e =>
    match e with
    | .bad => ⟨"assistant", []⟩
    | .msg r c => ⟨if r = "user" then "user" else "assistant", c⟩)

/-- Number of entries whose role is exactly `'user'`
(`messages.filter(m => m.role === 'user').length`). -/
def countUsers (entries : List Entry) : Nat :=
  (entries.filter (fun e =>
    match e with
    | .bad => false
    | .msg r _ => decide (r = "user"))).length

/-- Matches `[\.\)]\s` at the start of the list. -/
def dotWS : List Char → Bool
  | d :: e :: _ => (d = '.' || d = ')') && isJsWS e
  | _ => false

/-- Matches `\s*n[\.\)]\s` at the start of the list, for a digit `n`. -/
def numTail (n : Char) : List Char → Bool
  | [] => false
  | c :: rest => if isJsWS c then numTail n rest else decide (c = n) && dotWS rest

/-- Matches `\n\s*n[\.\)]\s` at the start of the list. -/
def startsNumNL (n : Char) : List Char → Bool
  | [] => false
  | c :: rest => decide (c = '\n') && numTail n rest

/-- Index of the leftmost match of `/\n\s*2[\.\)]\s/` (the `match.index` of
src/server.js `enforceOneQuestion`), or `none` when the test fails. -/
def findTwo : List Char → Option Nat
  | [] => none
  | c :: rest =>
    if startsNumNL '2' (c :: rest) then some 0
    else (findTwo rest).map (· + 1)

/-- Whether `/(?:^|\n)\s*1[\.\)]\s/` matches via its `\n` branch. -/
def hasNL1 : List Char → Bool
  | [] => false
  | c :: rest => startsNumNL '1' (c :: rest) || hasNL1 rest

/-- The test `/(?:^|\n)\s*1[\.\)]\s/.test(text)`. -/
def hasOne (t : List Char) : Bool :=
  numTail '1' t || hasNL1 t

/-- src/server.js `enforceOneQuestion`: when both `/(?:^|\n)\s*1[\.\)]\s/` and
`/\n\s*2[\.\)]\s/` match, truncate before the leftmost `/\n\s*2[\.\)]\s/`
match and trim; otherwise return the text unchanged. -/
def enforceOneQuestion (t : List Char) : List Char :=
  if hasOne t && (findTwo t).isSome then
    match findTwo t with
    | some i => jsTrim (t.take i)
    | none => t
  else t

/-- The feedback start marker literal of src/server.js. -/
def FEEDBACK_START_MARKER : List Char := strL "---FEEDBACK_START---"

/-- JavaScript `haystack.includes(needle)`. -/
def jsIncludes (needle hay : List Char) : Bool :=
  decide (needle <:+: hay)

/-- The six recognized voice identifiers. -/
def validVoices : List (List Char) :=
  [strL "alloy", strL "echo", strL "fable", strL "onyx", strL "nova", strL "shimmer"]

/-- JavaScript truthiness of the (string-or-absent) `voice` field. -/
def voiceTruthy : Option (List Char) → Bool
  | none => false
  | some v => !v.isEmpty

/-- The speech synthesis collaborator: from a voice identifier and an input
text it yields the base64-encoded audio, or `none` when the upstream call
throws. An empty buffer is represented by `some []`. -/
abbrev Synth := List Char → List Char → Option (List Char)

/-- src/server.js `generateInlineTTS`: falsy voice yields `null`; unrecognized
voices fall back to `nova`; input is capped at 1000 characters; a thrown
error or an empty audio buffer yields `null`. -/
def generateInlineTTS (text : List Char) (voice : Option (List Char)) (synth : Synth) :
    Option (List Char) :=
  match voice with
  | none => none
  | some v =>
    if v = [] then none
    else
      let selectedVoice := if v ∈ validVoices then v else strL "nova"
      let truncated := if 1000 < text.length then text.take 1000 else text
      match synth selectedVoice truncated with
      | none => none
      | some b => if b = [] then none else some b

/-- The context block appended to the persona template in the system prompt
(the prompt literal itself is fixed text and carries no request data). -/
structure SysCtx where
  jobTitle : List Char
  industry : List Char
  experience : List Char
  interviewType : Option (List Char)
deriving DecidableEq

/-- One chat completion call: the composed context, the messages following
the system prompt, and the `max_tokens` budget. -/
structure ChatCall where
  system : SysCtx
  history : List ChatMsg
  maxTokens : Nat
deriving DecidableEq

/-- Request body of `POST /api/real-interview`. -/
structure RealReq where
  messages : MsgsField
  jobTitle : JsStr
  industry : JsStr
  experienceLevel : JsStr
  interviewType : JsStr
  voice : Option (List Char)
deriving DecidableEq

/-- Request body of `POST /api/mock-interview`. -/
structure MockReq where
  messages : MsgsField
  jobTitle : JsStr
  industry : JsStr
  experienceLevel : JsStr
  voice : Option (List Char)
deriving DecidableEq

/-- Outcome of `POST /api/real-interview`. -/
inductive RealOutcome where
  | badRequest (error : List Char)
  | emptyUpstream
  | ok (message : List Char) (containsFeedback : Bool) (usage : Nat × Nat)
      (audioBase64 : Option (List Char))
deriving DecidableEq

/-- Outcome of `POST /api/mock-interview` (no `containsFeedback` field). -/
inductive MockOutcome where
  | badRequest (error : List Char)
  | emptyUpstream
  | ok (message : List Char) (usage : Nat × Nat) (audioBase64 : Option (List Char))
deriving DecidableEq

/-- A run of the real-interview handler: its outcome, the chat completion
call it performed (if any), and whether speech synthesis was invoked. -/
structure RealRun where
  outcome : RealOutcome
  chatCall : Option ChatCall
  ttsCalled : Bool
deriving DecidableEq

/-- A run of the mock-interview handler. -/
structure MockRun where
  outcome : MockOutcome
  chatCall : Option ChatCall
  ttsCalled : Bool
deriving DecidableEq

/-- Sanitized context fields of the real-interview system prompt, with the
documented defaults. -/
def realSys (req : RealReq) : SysCtx :=
  ⟨sanitizeInput req.jobTitle,
   orDefault (sanitizeInput req.industry) (strL "General"),
   orDefault (sanitizeInput req.experienceLevel) (strL "Mid-level"),
   some (orDefault (sanitizeInput req.interviewType) (strL "Behavioral and Technical"))⟩

/-- Sanitized context fields of the mock-interview system prompt. -/
def mockSys (req : MockReq) : SysCtx :=
  ⟨sanitizeInput req.jobTitle,
   orDefault (sanitizeInput req.industry) (strL "General"),
   orDefault (sanitizeInput req.experienceLevel) (strL "Mid-level"),
   none⟩

/-- `!Array.isArray(messages) || messages.length === 0`. -/
def realIsInitial (mf : MsgsField) : Bool :=
  match mf with
  | .arr entries => entries.isEmpty
  | _ => true

/-- The entries of an array-valued `messages` field. -/
def entriesOf (mf : MsgsField) : List Entry :=
  match mf with
  | .arr entries => entries
  | _ => []

/-- The real-interview few-shot seed used when the history is empty
(src/server.js lines 426-432). -/
def realFewShot : List ChatMsg :=
  [⟨"user", strL "Hi, I am here for the interview."⟩,
   ⟨"assistant", strL "Hi, thanks for taking the time to meet today! I\x27ve had a chance to review your background and I\x27m looking forward to our conversation. To kick things off, can you walk me through your current role and what your day-to-day looks like?"⟩,
   ⟨"user", strL "Sure — I\x27m currently a team lead at a mid-size tech company. I manage a team of 8 engineers and I\x27m responsible for sprint planning, code reviews, and shipping features on time."⟩,
   ⟨"assistant", strL "Got it — managing 8 engineers with ownership over sprint planning and delivery is a solid scope. What\x27s your process for prioritizing work when you have competing deadlines from different stakeholders?"⟩,
   ⟨"user", strL "Hello, I am ready for my interview."⟩]

/-- The mock-interview few-shot seed used when the history is empty
(src/server.js lines 516-520). -/
def mockFewShot : List ChatMsg :=
  [⟨"user", strL "Hi, I want to practice."⟩,
   ⟨"assistant", strL "Great to have you here! Let\x27s make this a productive session. To start things off — tell me about yourself and your professional background."⟩,
   ⟨"user", strL "Hi, I am ready to practice."⟩]

/-- Body of the real-interview handler after validation has passed:
build the chat call, guard against an empty upstream reply, detect the
feedback marker, apply the one-question safety net (skipped for feedback),
and attach best-effort inline TTS. -/
def realBody (req : RealReq) (rawText : List Char) (u : Nat × Nat) (synth : Synth) :
    RealRun :=
  let isInit := realIsInitial req.messages
  let call : ChatCall :=
    ⟨realSys req,
     if isInit then realFewShot else sanitizeMessages (entriesOf req.messages),
     if isInit then 200 else if 8 ≤ (entriesOf req.messages).length then 1024 else 512⟩
  if rawText = [] then ⟨.emptyUpstream, some call, false⟩
  else
    let containsFeedback := jsIncludes FEEDBACK_START_MARKER rawText
    let aiMessage := if containsFeedback then rawText else enforceOneQuestion rawText
    let wantTTS := !containsFeedback && voiceTruthy req.voice
    ⟨.ok aiMessage containsFeedback u
      (if wantTTS then generateInlineTTS aiMessage req.voice synth else none),
     some call, wantTTS⟩

/-- `POST /api/real-interview` (src/server.js lines 389-477). `rawText` is the
`safeContent` of the upstream chat reply and `u` its `safeUsage`. -/
def realInterview (req : RealReq) (rawText : List Char) (u : Nat × Nat) (synth : Synth) :
    RealRun :=
  if validateString req.jobTitle 200 then
    if !realIsInitial req.messages && !validateMessages req.messages then
      ⟨.badRequest (strL "Invalid messages format"), none, false⟩
    else realBody req rawText u synth
  else ⟨.badRequest (strL "A valid job title is required"), none, false⟩

/-- Body of the mock-interview handler after validation has passed. The
one-question safety net is applied unconditionally here. -/
def mockBody (req : MockReq) (entries : List Entry) (rawText : List Char)
    (u : Nat × Nat) (synth : Synth) : MockRun :=
  let isInit := entries.isEmpty
  let call : ChatCall :=
    ⟨mockSys req,
     if isInit then mockFewShot else sanitizeMessages entries,
     if isInit then 200 else 1024⟩
  if rawText = [] then ⟨.emptyUpstream, some call, false⟩
  else
    let aiMessage := enforceOneQuestion rawText
    let wantTTS := voiceTruthy req.voice
    ⟨.ok aiMessage u
      (if wantTTS then generateInlineTTS aiMessage req.voice synth else none),
     some call, wantTTS⟩

/-- `POST /api/mock-interview` (src/server.js lines 482-557). -/
def mockInterview (req : MockReq) (rawText : List Char) (u : Nat × Nat) (synth : Synth) :
    MockRun :=
  if validateString req.jobTitle 200 then
    match req.messages with
    | .arr entries =>
      if validateMessagesL entries then mockBody req entries rawText u synth
      else ⟨.badRequest (strL "Valid messages array is required"), none, false⟩
    | _ => ⟨.badRequest (strL "Valid messages array is required"), none, false⟩
  else ⟨.badRequest (strL "A valid job title is required"), none, false⟩

/-- The same request with the `voice` field removed. -/
def withoutVoiceR (req : RealReq) : RealReq := { req with voice := none }

/-- The same request with the `voice` field removed. -/
def withoutVoiceM (req : MockReq) : MockReq := { req with voice := none }

/-- Whether an outcome is a success response carrying no `audioBase64` field. -/
def isOkNoAudioR : RealOutcome → Bool
  | .ok _ _ _ none => true
  | _ => false

/-- Whether an outcome is a success response carrying no `audioBase64` field. -/
def isOkNoAudioM : MockOutcome → Bool
  | .ok _ _ none => true
  | _ => false

/-- The `max_tokens` of the chat call a run performed, if any. -/
def runMaxTokensR (r : RealRun) : Option Nat := r.chatCall.map ChatCall.maxTokens

/-- The `max_tokens` of the chat call a run performed, if any. -/
def runMaxTokensM (r : MockRun) : Option Nat := r.chatCall.map ChatCall.maxTokens

/-- The post-system-prompt history of the chat call a run performed, if any. -/
def runHistoryM (r : MockRun) : Option (List ChatMsg) := r.chatCall.map ChatCall.history

/-- src/unnamed/part_002 lines 1449-1452: `userMessageCount` of the
real-interview progress classification. -/
def userMessageCountP2 (mf : MsgsField) : Nat :=
  if realIsInitial mf then 0 else countUsers (entriesOf mf)

/-- src/unnamed/part_002 lines 1501-1506: the token budget tier of the
real-interview progress classification (200 initial, 2048 at 8 or more user
turns, 512 otherwise). -/
def maxTokensP2 (mf : MsgsField) : Nat :=
  if realIsInitial mf then 200
  else if 8 ≤ userMessageCountP2 mf then 2048
  else 512

/-- The sanitizer as claim C5 words it: every newline, tab, and control
character is replaced by a space, then the result is trimmed. -/
def specSanitizeStr (s : List Char) : List Char :=
  jsTrim (s.map (fun c =>
    if c = '\n' || c = '\t' || c.toNat < 32 || c.toNat = 127 then ' ' else c))

/-- Position `i` is the start of a line of `t`: the start of the text, or the
position right after a newline. -/
def lineStartAt (t : List Char) (i : Nat) : Bool :=
  decide (i = 0) || decide ((t.drop (i - 1)).head? = some '\n')

/-- A numbered item `1.` (or `1)`) begins at line-start position `i`. -/
def itemOneAt (t : List Char) (i : Nat) : Bool :=
  lineStartAt t i && numTail '1' (t.drop i)

/-- A numbered item `2.` (or `2)`) begins at line-start position `i`. -/
def itemTwoAt (t : List Char) (i : Nat) : Bool :=
  lineStartAt t i && numTail '2' (t.drop i)

/-- The numbered-list pattern as claim C1 words it: an item `1.` at the start
of a line and, later, an item `2.` at the start of a line. -/
def claimPattern (t : List Char) : Bool :=
  (List.range (t.length + 1)).any (fun i =>
    itemOneAt t i &&
    (List.range (t.length + 1)).any (fun j => decide (i < j) && itemTwoAt t j))

end InterviewPro

namespace InterviewPro

theorem dotWS_append {l r : List Char} (h : dotWS l = true) : dotWS (l ++ r) = true := by
  match l with
  | [] => simp [dotWS] at h
  | [d] => simp [dotWS] at h
  | d :: e :: rest => simpa [dotWS] using h

theorem numTail_append {n : Char} {l r : List Char} (h : numTail n l = true) :
    numTail n (l ++ r) = true := by
  induction l with
  | nil => simp [numTail] at h
  | cons c cs ih =>
    rw [List.cons_append, numTail]
    rw [numTail] at h
    by_cases hws : isJsWS c = true
    · simp only [hws, if_true] at h ⊢
      exact ih h
    · simp only [Bool.not_eq_true] at hws
      simp only [hws, Bool.false_eq_true, if_false, Bool.and_eq_true] at h ⊢
      exact ⟨h.1, dotWS_append h.2⟩

theorem startsNumNL_append {n : Char} {l r : List Char} (h : startsNumNL n l = true) :
    startsNumNL n (l ++ r) = true := by
  match l with
  | [] => simp [startsNumNL] at h
  | c :: cs =>
    rw [startsNumNL, Bool.and_eq_true] at h
    rw [List.cons_append, startsNumNL, Bool.and_eq_true]
    exact ⟨h.1, numTail_append h.2⟩

theorem startsNumNL_of_pre {n : Char} {l₁ l₂ : List Char} (hp : l₁ <+: l₂)
    (h : startsNumNL n l₁ = true) : startsNumNL n l₂ = true := by
  obtain ⟨r, rfl⟩ := hp
  exact startsNumNL_append h

theorem findTwo_some {t : List Char} {i : Nat} (h : findTwo t = some i) :
    startsNumNL '2' (t.drop i) = true ∧
    ∀ k, k < i → startsNumNL '2' (t.drop k) = false := by
  induction t generalizing i with
  | nil => simp [findTwo] at h
  | cons c cs ih =>
    rw [findTwo] at h
    split at h
    case isTrue hs =>
      have hi : i = 0 := by simpa using (Option.some.injEq 0 i).mp h |>.symm ▸ rfl
      cases Option.some.inj h
      exact ⟨by simpa using hs, by intro k hk; omega⟩
    case isFalse hs =>
      obtain ⟨j, hj, rfl⟩ := Option.map_eq_some'.mp h
      obtain ⟨hstart, hmin⟩ := ih hj
      refine ⟨by simpa [List.drop_succ_cons] using hstart, ?_⟩
      intro k hk
      match k with
      | 0 => simpa using hs
      | k' + 1 =>
        rw [List.drop_succ_cons]
        exact hmin k' (by omega)

theorem findTwo_none {t : List Char} (h : findTwo t = none) :
    ∀ k, startsNumNL '2' (t.drop k) = false := by
  induction t with
  | nil => intro k; simp [List.drop_nil, startsNumNL]
  | cons c cs ih =>
    rw [findTwo] at h
    split at h
    case isTrue hs => simp at h
    case isFalse hs =>
      have hcs : findTwo cs = none := by
        cases hfc : findTwo cs with
        | none => rfl
        | some j => rw [hfc] at h; simp at h
      intro k
      match k with
      | 0 => simpa using hs
      | k' + 1 => rw [List.drop_succ_cons]; exact ih hcs k'

theorem hasNL1_iff {t : List Char} :
    hasNL1 t = true ↔ ∃ i, startsNumNL '1' (t.drop i) = true := by
  induction t with
  | nil =>
    simp only [hasNL1]
    constructor
    · intro h; exact absurd h (by simp)
    · rintro ⟨i, hi⟩; simp [List.drop_nil, startsNumNL] at hi
  | cons c cs ih =>
    rw [hasNL1, Bool.or_eq_true]
    constructor
    · rintro (h | h)
      · exact ⟨0, by simpa using h⟩
      · obtain ⟨i, hi⟩ := ih.mp h
        exact ⟨i + 1, by simpa [List.drop_succ_cons] using hi⟩
    · rintro ⟨i, hi⟩
      match i with
      | 0 => exact Or.inl (by simpa using hi)
      | i' + 1 =>
        rw [List.drop_succ_cons] at hi
        exact Or.inr (ih.mpr ⟨i', hi⟩)

end InterviewPro

namespace InterviewPro

theorem dropWhile_idem (p : Char → Bool) (l : List Char) :
    List.dropWhile p (List.dropWhile p l) = List.dropWhile p l := by
  induction l with
  | nil => simp
  | cons c cs ih =>
    by_cases hc : p c = true
    · simp [List.dropWhile_cons, hc, ih]
    · simp only [Bool.not_eq_true] at hc
      simp [List.dropWhile_cons, hc]

theorem pre_of_reverse_suffix {s l : List Char} (h : s <:+ l.reverse) : s.reverse <+: l := by
  obtain ⟨u, hu⟩ := h
  refine ⟨u.reverse, ?_⟩
  have h2 := congrArg List.reverse hu
  rw [List.reverse_append, List.reverse_reverse] at h2
  exact h2

theorem trimRight_pre (l : List Char) : trimRight l <+: l :=
  pre_of_reverse_suffix (List.dropWhile_suffix isJsWS)

theorem jsTrim_within (l : List Char) : jsTrim l <:+: l :=
  ((trimRight_pre (l.dropWhile isJsWS)).isInfix).trans
    ((List.dropWhile_suffix isJsWS).isInfix)

theorem trimRight_idem (l : List Char) : trimRight (trimRight l) = trimRight l := by
  unfold trimRight
  rw [List.reverse_reverse, dropWhile_idem]

theorem dropWhile_fix_of_pre {l m : List Char}
    (h : List.dropWhile isJsWS l = l) (hpre : m <+: l) :
    List.dropWhile isJsWS m = m := by
  match m with
  | [] => simp
  | c :: cs =>
    obtain ⟨r, hr⟩ := hpre
    have hc : isJsWS c = false := by
      by_contra hcc
      simp only [Bool.not_eq_false] at hcc
      rw [← hr, List.cons_append, List.dropWhile_cons, hcc, if_pos rfl] at h
      have hsuf : List.dropWhile isJsWS (cs ++ r) <:+ cs ++ r :=
        List.dropWhile_suffix isJsWS
      have := congrArg List.length h
      have hle := hsuf.length_le
      simp only [List.length_cons, List.length_append] at this hle
      omega
    simp [List.dropWhile_cons, hc]

theorem jsTrim_idem (l : List Char) : jsTrim (jsTrim l) = jsTrim l := by
  unfold jsTrim
  rw [dropWhile_fix_of_pre (dropWhile_idem isJsWS l)
      (trimRight_pre (l.dropWhile isJsWS)), trimRight_idem]

theorem map_fixed {f : Char → Char} {l : List Char} (h : ∀ c ∈ l, f c = c) :
    l.map f = l := by
  induction l with
  | nil => rfl
  | cons c cs ih =>
    rw [List.map_cons, h c (List.mem_cons_self c cs),
      ih (fun x hx => h x (List.mem_cons_of_mem c hx))]

theorem replNRT_idem (c : Char) : replNRT (replNRT c) = replNRT c := by
  by_cases h : (c = '\n' || c = '\r' || c = '\t') = true
  · simp only [replNRT, h, if_true]
    decide
  · simp only [Bool.not_eq_true] at h
    simp [replNRT, h]

end InterviewPro

namespace InterviewPro

theorem no_two_in_take {t : List Char} {i : Nat}
    (hmin : ∀ k, k < i → startsNumNL '2' (t.drop k) = false)
    {s : List Char} (hinf : s <:+: t.take i) (hs : startsNumNL '2' s = true) : False := by
  obtain ⟨u, w, hw⟩ := hinf
  have hne : s ≠ [] := by
    intro he
    rw [he] at hs
    simp [startsNumNL] at hs
  have hlen : u.length + s.length + w.length = (t.take i).length := by
    rw [← hw]
    simp [List.length_append]
    omega
  have htle : (t.take i).length ≤ i := t.length_take_le i
  have hslen : 1 ≤ s.length := by
    match s, hne with
    | c :: cs, _ => simp
  have hult : u.length < i := by omega
  have hule : u.length ≤ (t.take i).length := by omega
  have hdrop1 : (t.take i).drop u.length = s ++ w := by
    rw [← hw, List.append_assoc, List.drop_left]
  have hsplit : t.drop u.length = (s ++ w) ++ t.drop i := by
    conv_lhs => rw [← List.take_append_drop i t]
    rw [List.drop_append_of_le_length hule, hdrop1]
  have : startsNumNL '2' (t.drop u.length) = true := by
    rw [hsplit]
    exact startsNumNL_append (startsNumNL_append hs)
  rw [hmin u.length hult] at this
  exact absurd this (by simp)

theorem genTTS_fail {synth : Synth}
    (hfail : ∀ v x, synth v x = none ∨ synth v x = some [])
    (text : List Char) (voice : Option (List Char)) :
    generateInlineTTS text voice synth = none := by
  match voice with
  | none => rfl
  | some v =>
    rw [generateInlineTTS]
    by_cases hv : v = []
    · simp [hv]
    · simp only [hv, if_false]
      rcases hfail (if v ∈ validVoices then v else strL "nova")
        (if 1000 < text.length then text.take 1000 else text) with h | h <;> simp [h]

end InterviewPro

namespace InterviewPro

/-- Claim C6: sanitization is idempotent —
`sanitizeInput(sanitizeInput(x)) == sanitizeInput(x)` for all strings `x`. -/
theorem sanitizeStr_idem (s : List Char) : sanitizeStr (sanitizeStr s) = sanitizeStr s := by
  unfold sanitizeStr
  have hmap : (jsTrim (s.map replNRT)).map replNRT = jsTrim (s.map replNRT) := by
    refine map_fixed (fun c hc => ?_)
    have hmem : c ∈ s.map replNRT := (jsTrim_within (s.map replNRT)).subset hc
    obtain ⟨c₀, _, rfl⟩ := List.mem_map.mp hmem
    exact replNRT_idem c₀
  rw [hmap, jsTrim_idem]

/-- Claim C5 (amended): `sanitizeInput` on a string equals the string with
every `\n`, `\r` and `\t` replaced by a space, then trimmed; in particular
the result contains no `\n`, `\r` or `\t`. -/
theorem sanitizeStr_spec (s : List Char) :
    sanitizeStr s = jsTrim (s.map replNRT) ∧
    (sanitizeStr s).all (fun c => !(c = '\n' || c = '\r' || c = '\t')) = true := by
  refine ⟨rfl, ?_⟩
  rw [List.all_eq_true]
  intro c hc
  have hmem : c ∈ s.map replNRT := (jsTrim_within (s.map replNRT)).subset hc
  obtain ⟨c₀, _, rfl⟩ := List.mem_map.mp hmem
  unfold replNRT
  by_cases h : (c₀ = '\n' || c₀ = '\r' || c₀ = '\t') = true
  · rw [if_pos h]; decide
  · rw [if_neg h]
    simpa using h

/-- Claim C5 fails as stated: `sanitizeInput` replaces only `\n`, `\r` and
`\t`, not every control character. On `"a\x00b"` the claimed sanitizer yields
`"a b"` while the code leaves the NUL byte in place, so the output still
contains a control character. -/
theorem sanitize_control_counterexample :
    sanitizeStr ['a', '\x00', 'b'] ≠ specSanitizeStr ['a', '\x00', 'b'] ∧
    '\x00' ∈ sanitizeStr ['a', '\x00', 'b'] := by
  decide

end InterviewPro

namespace InterviewPro

/-- Claim C9: the one-question safety net is idempotent — a reply already
truncated by `enforceOneQuestion` contains no further line-start `2.`/`2)`
item, so re-applying the post-processor leaves it unchanged. -/
theorem enforceOneQuestion_idem (t : List Char) :
    enforceOneQuestion (enforceOneQuestion t) = enforceOneQuestion t := by
  cases hft : findTwo t with
  | none =>
    have he : enforceOneQuestion t = t := by
      simp [enforceOneQuestion, hft]
    rw [he]
    exact he
  | some i =>
    cases h1 : hasOne t with
    | false =>
      have he : enforceOneQuestion t = t := by
        simp [enforceOneQuestion, h1]
      rw [he]
      exact he
    | true =>
      have he : enforceOneQuestion t = jsTrim (t.take i) := by
        simp [enforceOneQuestion, hft, h1]
      obtain ⟨hstart, hmin⟩ := findTwo_some hft
      have hnone : findTwo (jsTrim (t.take i)) = none := by
        cases hfp : findTwo (jsTrim (t.take i)) with
        | none => rfl
        | some j =>
          exfalso
          obtain ⟨hs, _⟩ := findTwo_some hfp
          exact no_two_in_take hmin
            (((List.drop_suffix j (jsTrim (t.take i))).isInfix).trans
              (jsTrim_within (t.take i)))
            hs
      rw [he]
      simp [enforceOneQuestion, hnone]

end InterviewPro

namespace InterviewPro

/-- Claim C1 (amended): `enforceOneQuestion` truncates exactly when the text
matches `/(?:^|\n)\s*1[\.\)]\s/` somewhere and `/\n\s*2[\.\)]\s/` somewhere —
in either order. When both match, the result is the prefix ending at the
leftmost `/\n\s*2[\.\)]\s/` match, trimmed; otherwise the text is returned
unchanged. -/
theorem enforceOneQuestion_spec (t : List Char) :
    (∀ j, startsNumNL '2' (t.drop j) = true →
      (∀ k, k < j → startsNumNL '2' (t.drop k) = false) →
      (numTail '1' t = true ∨ ∃ i, startsNumNL '1' (t.drop i) = true) →
      enforceOneQuestion t = jsTrim (t.take j)) ∧
    ((numTail '1' t = false ∧ ∀ i, startsNumNL '1' (t.drop i) = false) ∨
      (∀ j, startsNumNL '2' (t.drop j) = false) →
      enforceOneQuestion t = t) := by
  constructor
  · intro j hj hjmin hone
    have h1 : hasOne t = true := by
      rw [hasOne, Bool.or_eq_true]
      rcases hone with h | h
      · exact Or.inl h
      · exact Or.inr (hasNL1_iff.mpr h)
    have hft : findTwo t = some j := by
      cases hft : findTwo t with
      | none => exact absurd hj (by rw [findTwo_none hft j]; simp)
      | some i =>
        obtain ⟨hi, himin⟩ := findTwo_some hft
        have hij : i = j := by
          rcases Nat.lt_trichotomy i j with h | h | h
          · exact absurd hi (by rw [hjmin i h]; simp)
          · exact h
          · exact absurd hj (by rw [himin j h]; simp)
        rw [hij]
    simp [enforceOneQuestion, h1, hft]
  · intro hno
    rcases hno with ⟨h1, h2⟩ | h
    · have hone : hasOne t = false := by
        rw [hasOne, h1, Bool.false_or]
        cases hh : hasNL1 t with
        | false => rfl
        | true =>
          obtain ⟨i, hi⟩ := hasNL1_iff.mp hh
          rw [h2 i] at hi
          exact absurd hi (by simp)
      simp [enforceOneQuestion, hone]
    · have hft : findTwo t = none := by
        cases hft : findTwo t with
        | none => rfl
        | some i =>
          obtain ⟨hi, _⟩ := findTwo_some hft
          rw [h i] at hi
          exact absurd hi (by simp)
      simp [enforceOneQuestion, hft]

/-- Witness for the amended claim C1: on `"1. A\n2. B"` the leftmost
`/\n\s*2[\.\)]\s/` match is at index 4, and the post-processor returns the
trimmed prefix `"1. A"`. -/
theorem enforceOneQuestion_spec_witness :
    enforceOneQuestion (strL "1. A\n2. B") = jsTrim ((strL "1. A\n2. B").take 4) :=
  (enforceOneQuestion_spec (strL "1. A\n2. B")).1 4 (by decide)
    (by decide) (Or.inl (by decide))

/-- Claim C1 fails as stated: the code does not require the `2.` item to come
later than the `1.` item. On `"\n2. B\n1. A"` there is no line-start `1.`
item followed later by a line-start `2.` item, yet the post-processor does
not return the text unchanged — it truncates everything, although the text
does not contain the feedback marker. -/
theorem enforceOneQuestion_claim_counterexample :
    claimPattern (strL "\n2. B\n1. A") = false ∧
    jsIncludes FEEDBACK_START_MARKER (strL "\n2. B\n1. A") = false ∧
    enforceOneQuestion (strL "\n2. B\n1. A") ≠ strL "\n2. B\n1. A" ∧
    enforceOneQuestion (strL "\n2. B\n1. A") = [] := by
  refine ⟨by decide, by decide, by decide, by decide⟩

end InterviewPro

namespace InterviewPro

/-- Claim C2: on `/api/real-interview`, whenever the handler returns a
success response, its `containsFeedback` field is true iff the raw upstream
reply contains the literal substring `---FEEDBACK_START---`. -/
theorem real_containsFeedback_iff (req : RealReq) (rawText : List Char)
    (u : Nat × Nat) (synth : Synth) (m : List Char) (cf : Bool)
    (u' : Nat × Nat) (a : Option (List Char))
    (h : (realInterview req rawText u synth).outcome = .ok m cf u' a) :
    cf = jsIncludes FEEDBACK_START_MARKER rawText := by
  unfold realInterview at h
  split at h
  · split at h
    · simp at h
    · unfold realBody at h
      by_cases hrt : rawText = []
      · simp [hrt] at h
      · simp only [if_neg hrt] at h
        simp only [RealOutcome.ok.injEq] at h
        exact h.2.1.symm
  · simp at h

/-- Witness for claim C2 at a concrete request and a reply carrying the
marker. -/
theorem real_containsFeedback_iff_witness :
    (true : Bool) = jsIncludes FEEDBACK_START_MARKER (strL "x---FEEDBACK_START---y") :=
  real_containsFeedback_iff
    ⟨.arr [.msg "user" (strL "hi")], .str (strL "Engineer"), .absent, .absent, .absent, none⟩
    (strL "x---FEEDBACK_START---y") (1, 2) (fun _ _ => none)
    (strL "x---FEEDBACK_START---y") true (1, 2) none (by decide)

end InterviewPro

namespace InterviewPro

/-- Claim C4: when `jobTitle` is missing, not a string, empty after trimming,
or longer than 200 characters, `/api/real-interview` returns the 400 error
and performs neither the chat completion call nor the speech synthesis
call. -/
theorem real_jobTitle_failfast (req : RealReq) (rawText : List Char)
    (u : Nat × Nat) (synth : Synth)
    (h : req.jobTitle = .absent ∨ req.jobTitle = .nonString ∨
      ∃ s, req.jobTitle = .str s ∧ (jsTrim s = [] ∨ 200 < s.length)) :
    (realInterview req rawText u synth).outcome
        = .badRequest (strL "A valid job title is required") ∧
    (realInterview req rawText u synth).chatCall = none ∧
    (realInterview req rawText u synth).ttsCalled = false := by
  have hv : validateString req.jobTitle 200 = false := by
    rcases h with h | h | ⟨s, hs, h⟩
    · rw [h]; rfl
    · rw [h]; rfl
    · rw [hs]
      unfold validateString
      rcases h with h | h
      · simp [h]
      · simp only [Bool.and_eq_false_iff]
        right
        simpa using h
  unfold realInterview
  rw [hv]
  exact ⟨rfl, rfl, rfl⟩

/-- Witness for claim C4 at a whitespace-only job title. -/
theorem real_jobTitle_failfast_witness :
    (realInterview ⟨.arr [], .str (strL "   "), .absent, .absent, .absent, some (strL "nova")⟩
        (strL "hello") (1, 2) (fun _ _ => some (strL "b64"))).outcome
      = .badRequest (strL "A valid job title is required") ∧
    (realInterview ⟨.arr [], .str (strL "   "), .absent, .absent, .absent, some (strL "nova")⟩
        (strL "hello") (1, 2) (fun _ _ => some (strL "b64"))).chatCall = none ∧
    (realInterview ⟨.arr [], .str (strL "   "), .absent, .absent, .absent, some (strL "nova")⟩
        (strL "hello") (1, 2) (fun _ _ => some (strL "b64"))).ttsCalled = false :=
  real_jobTitle_failfast _ _ _ _ (Or.inr (Or.inr ⟨strL "   ", rfl, Or.inl (by decide)⟩))

end InterviewPro

namespace InterviewPro

/-- Claim C10: there is a non-empty reply without the feedback marker (a
line-start `2.` item preceding the `1.` item) that `enforceOneQuestion`
truncates to the empty string, so `/api/real-interview` can return a
success response whose `message` is empty — while a genuinely empty
upstream reply is rejected with 502 before post-processing. -/
theorem real_empty_message_success :
    strL "\n2. B\n1. A" ≠ [] ∧
    jsIncludes FEEDBACK_START_MARKER (strL "\n2. B\n1. A") = false ∧
    enforceOneQuestion (strL "\n2. B\n1. A") = [] ∧
    (realInterview
        ⟨.arr [.msg "user" (strL "hi")], .str (strL "Engineer"), .absent, .absent, .absent, none⟩
        (strL "\n2. B\n1. A") (1, 2) (fun _ _ => none)).outcome
      = .ok [] false (1, 2) none ∧
    (realInterview
        ⟨.arr [.msg "user" (strL "hi")], .str (strL "Engineer"), .absent, .absent, .absent, none⟩
        [] (1, 2) (fun _ _ => none)).outcome
      = .emptyUpstream := by
  refine ⟨by decide, by decide, by decide, by decide, by decide⟩

end InterviewPro

namespace InterviewPro

/-- Claim C3 fails as stated for src/server.js: the budget there is selected
from the total message count, not the user-turn count. A history of 8
messages with a single user turn gets 1024 tokens, while a history of 2
messages with two user turns gets only 512. -/
theorem budget_user_monotone_counterexample :
    countUsers [.msg "user" ['a'], .msg "assistant" ['b'], .msg "assistant" ['b'],
      .msg "assistant" ['b'], .msg "assistant" ['b'], .msg "assistant" ['b'],
      .msg "assistant" ['b'], .msg "assistant" ['b']] = 1 ∧
    countUsers [.msg "user" ['a'], .msg "user" ['c']] = 2 ∧
    runMaxTokensR (realInterview
        ⟨.arr [.msg "user" ['a'], .msg "assistant" ['b'], .msg "assistant" ['b'],
          .msg "assistant" ['b'], .msg "assistant" ['b'], .msg "assistant" ['b'],
          .msg "assistant" ['b'], .msg "assistant" ['b']],
         .str (strL "Engineer"), .absent, .absent, .absent, none⟩
        (strL "ok") (1, 2) (fun _ _ => none)) = some 1024 ∧
    runMaxTokensR (realInterview
        ⟨.arr [.msg "user" ['a'], .msg "user" ['c']],
         .str (strL "Engineer"), .absent, .absent, .absent, none⟩
        (strL "ok") (1, 2) (fun _ _ => none)) = some 512 := by
  refine ⟨by decide, by decide, by decide, by decide⟩

/-- Claim C3 (amended): for the userMessageCount tiering of
src/unnamed/part_002, the token budget never decreases when the number of
user turns grows from `k` to `k + 1`. -/
theorem maxTokensP2_monotone (m₁ m₂ : MsgsField)
    (h : userMessageCountP2 m₂ = userMessageCountP2 m₁ + 1) :
    maxTokensP2 m₁ ≤ maxTokensP2 m₂ := by
  have h₂ : realIsInitial m₂ = false := by
    cases hini : realIsInitial m₂ with
    | false => rfl
    | true =>
      rw [userMessageCountP2, hini, if_pos rfl] at h
      omega
  rw [maxTokensP2, maxTokensP2, h₂]
  simp only [Bool.false_eq_true, if_false]
  by_cases hini₁ : realIsInitial m₁ = true
  · rw [if_pos hini₁]
    split <;> omega
  · rw [if_neg hini₁]
    by_cases h8 : 8 ≤ userMessageCountP2 m₁
    · rw [if_pos h8, if_pos (show 8 ≤ userMessageCountP2 m₂ by omega)]
    · rw [if_neg h8]
      split <;> omega

/-- Witness for the amended claim C3 at concrete histories with 7 and 8 user
turns. -/
theorem maxTokensP2_monotone_witness :
    maxTokensP2 (.arr (List.replicate 7 (Entry.msg "user" ['a'])))
      ≤ maxTokensP2 (.arr (List.replicate 8 (Entry.msg "user" ['a']))) :=
  maxTokensP2_monotone _ _ (by decide)

end InterviewPro

namespace InterviewPro

/-- Claim C7 fails on the code: an empty `messages` array passes validation
on `/api/mock-interview`, the handler does not return 400, and it seeds the
scripted mock few-shot exchange with the initial 200-token budget (a
bootstrap-from-empty path). -/
theorem mock_empty_messages_counterexample :
    (mockInterview ⟨.arr [], .str (strL "Engineer"), .absent, .absent, none⟩
        (strL "Tell me about yourself.") (3, 4) (fun _ _ => none)).outcome
      = .ok (strL "Tell me about yourself.") (3, 4) none ∧
    runHistoryM (mockInterview ⟨.arr [], .str (strL "Engineer"), .absent, .absent, none⟩
        (strL "Tell me about yourself.") (3, 4) (fun _ _ => none)) = some mockFewShot ∧
    runMaxTokensM (mockInterview ⟨.arr [], .str (strL "Engineer"), .absent, .absent, none⟩
        (strL "Tell me about yourself.") (3, 4) (fun _ _ => none)) = some 200 := by
  refine ⟨by decide, by decide, by decide⟩

/-- Claim C7 (amended): `/api/mock-interview` returns 400 when `messages` is
absent or not an array (or fails message validation); an empty array is
accepted and triggers the scripted few-shot seed with the 200-token initial
budget. -/
theorem mock_messages_validation (mreq : MockReq) (rawText : List Char)
    (u : Nat × Nat) (synth : Synth) :
    ((mreq.messages = .absent ∨ mreq.messages = .nonArray) →
      ∃ e, (mockInterview mreq rawText u synth).outcome = .badRequest e) ∧
    (mreq.messages = .arr [] → validateString mreq.jobTitle 200 = true →
      runHistoryM (mockInterview mreq rawText u synth) = some mockFewShot ∧
      runMaxTokensM (mockInterview mreq rawText u synth) = some 200) := by
  constructor
  · intro h
    unfold mockInterview
    by_cases hv : validateString mreq.jobTitle 200 = true
    · rw [if_pos hv]
      rcases h with h | h <;> rw [h] <;>
        exact ⟨strL "Valid messages array is required", rfl⟩
    · rw [if_neg hv]
      exact ⟨strL "A valid job title is required", rfl⟩
  · intro hm hv
    have hval : validateMessagesL ([] : List Entry) = true := by decide
    unfold mockInterview
    rw [if_pos hv, hm]
    unfold mockBody
    by_cases hrt : rawText = [] <;>
      simp [hval, hrt, runHistoryM, runMaxTokensM]

/-- Witness for the amended claim C7: a non-array `messages` yields 400, and
an empty array yields the few-shot seed. -/
theorem mock_messages_validation_witness :
    (∃ e, (mockInterview ⟨.nonArray, .str (strL "Engineer"), .absent, .absent, none⟩
        (strL "hi") (1, 1) (fun _ _ => none)).outcome = .badRequest e) ∧
    (runHistoryM (mockInterview ⟨.arr [], .str (strL "Coach"), .absent, .absent, none⟩
        (strL "hi") (1, 1) (fun _ _ => none)) = some mockFewShot ∧
     runMaxTokensM (mockInterview ⟨.arr [], .str (strL "Coach"), .absent, .absent, none⟩
        (strL "hi") (1, 1) (fun _ _ => none)) = some 200) :=
  ⟨(mock_messages_validation ⟨.nonArray, .str (strL "Engineer"), .absent, .absent, none⟩
      (strL "hi") (1, 1) (fun _ _ => none)).1 (Or.inr rfl),
   (mock_messages_validation ⟨.arr [], .str (strL "Coach"), .absent, .absent, none⟩
      (strL "hi") (1, 1) (fun _ _ => none)).2 rfl (by decide)⟩

end InterviewPro

namespace InterviewPro

/-- Claim C8: on both interview endpoints, when the speech synthesis
collaborator fails (throws or returns empty audio), the handler still
returns the success response with the same textual fields as a run without
`voice`, and no `audioBase64` field. -/
theorem tts_best_effort (req : RealReq) (mreq : MockReq) (rawText : List Char)
    (u : Nat × Nat) (sFail sAny : Synth)
    (hfail : ∀ v x, sFail v x = none ∨ sFail v x = some [])
    (hjob : validateString req.jobTitle 200 = true)
    (hmsg : realIsInitial req.messages = true ∨ validateMessages req.messages = true)
    (hmjob : validateString mreq.jobTitle 200 = true)
    (hmmsg : ∃ entries, mreq.messages = .arr entries ∧ validateMessagesL entries = true)
    (hrt : rawText ≠ []) :
    ((realInterview req rawText u sFail).outcome
        = (realInterview (withoutVoiceR req) rawText u sAny).outcome ∧
      isOkNoAudioR (realInterview req rawText u sFail).outcome = true) ∧
    ((mockInterview mreq rawText u sFail).outcome
        = (mockInterview (withoutVoiceM mreq) rawText u sAny).outcome ∧
      isOkNoAudioM (mockInterview mreq rawText u sFail).outcome = true) := by
  have hgen : ∀ text voice, generateInlineTTS text voice sFail = none :=
    fun text voice => genTTS_fail hfail text voice
  constructor
  · obtain ⟨ms, jt, ind, exl, it, vc⟩ := req
    have hcond : (!realIsInitial ms && !validateMessages ms) = false := by
      rcases hmsg with h | h <;> simp_all
    unfold realInterview realBody withoutVoiceR
    simp only at hjob hcond ⊢
    rw [if_pos hjob, if_pos hjob, hcond]
    simp only [Bool.false_eq_true, if_false, if_neg hrt]
    constructor
    · simp [hgen, voiceTruthy]
    · simp [isOkNoAudioR, hgen]
  · obtain ⟨mms, mjt, mind, mexl, mvc⟩ := mreq
    obtain ⟨entries, hme, hval⟩ := hmmsg
    simp only at hme
    subst hme
    unfold mockInterview mockBody withoutVoiceM
    simp only at hmjob ⊢
    rw [if_pos hmjob, if_pos hmjob]
    simp only [if_pos hval, if_neg hrt]
    constructor
    · simp [hgen, voiceTruthy]
    · simp [isOkNoAudioM, hgen]

/-- Witness for claim C8 at concrete requests with `voice` present and a
failing synthesizer. -/
theorem tts_best_effort_witness :
    ((realInterview
        ⟨.arr [.msg "user" (strL "hi")], .str (strL "Engineer"), .absent, .absent, .absent,
          some (strL "nova")⟩ (strL "Tell me more.") (1, 2) (fun _ _ => none)).outcome
      = (realInterview
        (withoutVoiceR ⟨.arr [.msg "user" (strL "hi")], .str (strL "Engineer"), .absent,
          .absent, .absent, some (strL "nova")⟩) (strL "Tell me more.") (1, 2)
        (fun _ _ => some (strL "audio"))).outcome ∧
      isOkNoAudioR (realInterview
        ⟨.arr [.msg "user" (strL "hi")], .str (strL "Engineer"), .absent, .absent, .absent,
          some (strL "nova")⟩ (strL "Tell me more.") (1, 2) (fun _ _ => none)).outcome = true) ∧
    ((mockInterview
        ⟨.arr [.msg "user" (strL "hi")], .str (strL "Coach"), .absent, .absent,
          some (strL "echo")⟩ (strL "Tell me more.") (1, 2) (fun _ _ => none)).outcome
      = (mockInterview
        (withoutVoiceM ⟨.arr [.msg "user" (strL "hi")], .str (strL "Coach"), .absent, .absent,
          some (strL "echo")⟩) (strL "Tell me more.") (1, 2)
        (fun _ _ => some (strL "audio"))).outcome ∧
      isOkNoAudioM (mockInterview
        ⟨.arr [.msg "user" (strL "hi")], .str (strL "Coach"), .absent, .absent,
          some (strL "echo")⟩ (strL "Tell me more.") (1, 2) (fun _ _ => none)).outcome = true) :=
  tts_best_effort _ _ _ _ _ _ (fun _ _ => Or.inl rfl) (by decide)
    (Or.inr (by decide)) (by decide) ⟨[.msg "user" (strL "hi")], rfl, by decide⟩
    (by decide)

end InterviewPro
